import Mathlib

/-!
Verification development for the CelShooter repository.

Shallow embedding of the combat/effects core found in the repository's
JavaScript sources:

* `Weapon.js` (the unnamed source file): base `Weapon` (cooldown gate,
  `calculateDamage`), `MeleeWeapon` (swing state, arc-ray hit detection),
  `RangedWeapon` (ammo, reload state machine, hitscan raycast).
* `Effects.js`: `EffectsManager` (particle-system / decal budgets with
  oldest-first eviction), `Player` (look pitch clamp, health, weapon
  equipping).

Continuous quantities (JS `number`) are modelled as rationals `ℚ`;
`Math.round` is modelled exactly as `⌊x + 1/2⌋`, which is the JS
semantics for finite arguments.  Counters are modelled as integers.
State-mutating methods become state transformers returning the new state
together with the method's boolean result.
-/

namespace CelShooter

/-- JS `Math.round` on finite numbers: half-up rounding, `⌊x + 1/2⌋`. -/
def jsRound (q : ℚ) : ℤ := Int.floor (q + 1/2)

/-! ## Base `Weapon` (Weapon.js lines 7-143)

Fields relevant to the verified claims.  `lastUsed` starts at `0`
(constructor line 14); `canUse` compares `performance.now()/1000 -
lastUsed` against `cooldown` (lines 73-76).  Visual/audio fields
(model, sounds, particle system) carry no spec-relevant state and are
omitted from the weapon-state embedding; the weapon-model attachment is
modelled separately for the player-equip claims. -/

structure WeaponBase where
  damage : ℚ
  cooldown : ℚ
  lastUsed : ℚ
  range : ℚ
deriving Repr, DecidableEq

/-- `Weapon.canUse` (Weapon.js 73-76): `now - lastUsed >= cooldown`. -/
def canUse (w : WeaponBase) (now : ℚ) : Bool :=
  decide (w.cooldown ≤ now - w.lastUsed)

/-- Base `Weapon.use` (Weapon.js 84-96): fails under cooldown, otherwise
records `lastUsed := now` and succeeds.  The sound side effect does not
touch weapon state. -/
def weaponUse (w : WeaponBase) (now : ℚ) : WeaponBase × Bool :=
  if canUse w now then ({ w with lastUsed := now }, true) else (w, false)

/-- `Weapon.calculateDamage` (Weapon.js 103-118).  `modifiers.distance`
is a JS truthiness test, so a present-but-zero distance skips the
falloff branch (the numeric result coincides with falloff 1); the
distance modifier is therefore an `Option ℚ` and the guard also tests
for `0`. -/
def calculateDamage (w : WeaponBase) (critical : Bool) (distance : Option ℚ) : ℤ :=
  let d1 : ℚ := if critical then w.damage * 2 else w.damage
  let d2 : ℚ :=
    match distance with
    | some dist => if dist ≠ 0 then d1 * max 0 (1 - dist / w.range) else d1
    | none => d1
  jsRound d2

/-! ## `MeleeWeapon` state (Weapon.js 149-338) -/

structure MeleeState where
  base : WeaponBase
  swingWidth : ℚ
  swingDuration : ℚ
  isSwinging : Bool
  swingProgress : ℚ
  knockback : ℚ
deriving Repr, DecidableEq

/-- `MeleeWeapon.use` (Weapon.js 183-202), restricted to its effect on
weapon state: a failed `super.use` returns before any swing field is
touched; a successful one starts the swing.  Hit detection itself is
modelled separately (`performHitDetection`) as it does not mutate the
weapon. -/
def meleeUse (m : MeleeState) (now : ℚ) : MeleeState × Bool :=
  match weaponUse m.base now with
  | (_, false) => (m, false)
  | (b, true) => ({ m with base := b, isSwinging := true, swingProgress := 0 }, true)

/-! ## Melee hit detection (Weapon.js 210-271)

The geometric primitives that the code takes from THREE.js are
parameters of the embedding: `intersectObject` is the semantics of
`Raycaster.intersectObjects` for a single scene object given origin,
direction and the raycaster's `far` limit, and `rotateAboutY` is
`Vector3.applyAxisAngle` about `(0,1,0)` (its angles involve `π` via
`degToRad`, which is likewise a parameter).  The scene-object list the
source actually passes to every `intersectObjects` call is the literal
empty array `[]` (Weapon.js 225, 233, 239, each marked
"Add scene objects here"), and that literal is kept in the embedding. -/

structure Vec3 where
  x : ℚ
  y : ℚ
  z : ℚ
deriving Repr, DecidableEq

/-- One entry of a THREE.js raycast result, restricted to the fields the
code reads (`distance`, `point`, `face.normal`). -/
structure RayHit where
  distance : ℚ
  point : Vec3
  normal : Vec3
deriving Repr, DecidableEq

/-- The record handed to the melee `hitCallback` (Weapon.js 261-267),
minus the struck-object reference. -/
structure HitReport where
  point : Vec3
  normal : Vec3
  damage : ℤ
  knockback : ℚ
deriving Repr, DecidableEq

/-- `Raycaster.intersectObjects`: concatenated per-object intersections
(THREE returns them distance-sorted; the code re-sorts, so the order
here is irrelevant). -/
def intersectObjects (intersectObject : α → Vec3 → Vec3 → ℚ → List RayHit)
    (objs : List α) (origin dir : Vec3) (far : ℚ) : List RayHit :=
  (objs.map (fun o => intersectObject o origin dir far)).flatten

/-- `MeleeWeapon.performHitDetection` (Weapon.js 210-271): a center ray
plus, for `i = 1..arcSteps`, a left ray at `(i/arcSteps)·(arc/2)` and a
right ray at the negated angle — every one intersected against the
hard-coded empty object list; the collected hits are sorted by
distance, the closest is range-checked, and the callback payload
(modelled as the `some` result) carries the falloff damage, hit point,
surface normal and knockback. -/
def performHitDetection (intersectObject : α → Vec3 → Vec3 → ℚ → List RayHit)
    (rotateAboutY : Vec3 → ℚ → Vec3) (degToRad : ℚ → ℚ)
    (m : MeleeState) (position direction : Vec3) : Option HitReport :=
  let sceneObjects : List α := []
  let arcSteps : ℕ := 5
  let arcAngle : ℚ := degToRad m.swingWidth
  let centerHits := intersectObjects intersectObject sceneObjects position direction m.base.range
  let arcHits := (List.range arcSteps).flatMap (fun j =>
    let i : ℚ := (j : ℚ) + 1
    let leftAngle := (i / (arcSteps : ℚ)) * (arcAngle / 2)
    let leftDir := rotateAboutY direction leftAngle
    let rightAngle := -((i / (arcSteps : ℚ)) * (arcAngle / 2))
    let rightDir := rotateAboutY direction rightAngle
    intersectObjects intersectObject sceneObjects position leftDir m.base.range ++
    intersectObjects intersectObject sceneObjects position rightDir m.base.range)
  let hits := centerHits ++ arcHits
  if 0 < hits.length then
    match hits.mergeSort (fun a b => a.distance ≤ b.distance) with
    | [] => none
    | closestHit :: _ =>
      if closestHit.distance ≤ m.base.range then
        some { point := closestHit.point, normal := closestHit.normal,
               damage := calculateDamage m.base false (some closestHit.distance),
               knockback := m.knockback }
      else none
  else none

/-- A one-object world whose single object is a wall one unit in front
of every ray: the raycaster semantics used to witness that geometry
within range exists while `performHitDetection` still reports nothing. -/
def wallIntersect : Unit → Vec3 → Vec3 → ℚ → List RayHit :=
  fun _ origin _ far =>
    if 1 ≤ far then [{ distance := 1,
                       point := { x := origin.x, y := origin.y, z := origin.z - 1 },
                       normal := { x := 0, y := 0, z := 1 } }]
    else []

/-! ## `RangedWeapon` state (Weapon.js 344-607) -/

structure RangedState where
  base : WeaponBase
  current : ℤ
  maxAmmo : ℤ
  reserve : ℤ
  isReloading : Bool
  reloadProgress : ℚ
  reloadTime : ℚ
deriving Repr, DecidableEq

/-- `RangedWeapon.reload` (Weapon.js 528-543): refused while reloading,
with a full magazine, or with empty reserve; otherwise enters the
Reloading state. -/
def rangedReload (r : RangedState) : RangedState × Bool :=
  if r.isReloading ∨ r.current = r.maxAmmo ∨ r.reserve ≤ 0 then (r, false)
  else ({ r with isReloading := true, reloadProgress := 0 }, true)

/-- `RangedWeapon.use` (Weapon.js 400-435), restricted to weapon state:
reloading blocks; an empty magazine auto-triggers `reload()` and fails;
then the base cooldown gate runs; on success one round is consumed.
Muzzle flash and the raycast/projectile do not mutate these fields. -/
def rangedUse (r : RangedState) (now : ℚ) : RangedState × Bool :=
  if r.isReloading then (r, false)
  else if r.current ≤ 0 then ((rangedReload r).1, false)
  else
    match weaponUse r.base now with
    | (_, false) => (r, false)
    | (b, true) => ({ r with base := b, current := r.current - 1 }, true)

/-- `RangedWeapon.update` (Weapon.js 549-569): advances reload progress;
when it reaches 1 the reload completes, transferring
`min(max - current, reserve)` rounds from reserve to magazine. -/
def rangedUpdate (r : RangedState) (deltaTime : ℚ) : RangedState :=
  if r.isReloading then
    let p := r.reloadProgress + deltaTime / r.reloadTime
    if 1 ≤ p then
      let ammoNeeded := r.maxAmmo - r.current
      let ammoAvailable := min ammoNeeded r.reserve
      { r with isReloading := false, reloadProgress := p,
               current := r.current + ammoAvailable,
               reserve := r.reserve - ammoAvailable }
    else { r with reloadProgress := p }
  else r

/-- Operations a ranged weapon undergoes during play: `use(now)`,
an explicit `reload()` request, and the per-frame `update(dt)`. -/
inductive RangedOp where
  | use (now : ℚ)
  | reload
  | update (dt : ℚ)
deriving Repr, DecidableEq

def applyRangedOp (r : RangedState) : RangedOp → RangedState
  | .use now => (rangedUse r now).1
  | .reload => (rangedReload r).1
  | .update dt => rangedUpdate r dt

def runRangedOps (r : RangedState) (ops : List RangedOp) : RangedState :=
  ops.foldl applyRangedOp r

/-! ## `EffectsManager` (Effects.js 7-502)

Only the lifecycle-relevant fields of an effect are embedded: its kind,
age and fixed lifetime (Effects.js 296-299 and 378-381).  Particle
kinematics and material opacity updates touch no manager state and do
not influence the completion test `age >= lifetime`, so they are not
part of the state. -/

inductive EffectType where
  | particle
  | decal
deriving Repr, DecidableEq

structure Effect where
  type : EffectType
  age : ℚ
  lifetime : ℚ
deriving Repr, DecidableEq

/-- The manager's own state (Effects.js 13-19): the `activeEffects`
array and the two population counters. -/
structure EffectsState where
  activeEffects : List Effect
  particleCount : ℤ
  decalCount : ℤ
deriving Repr, DecidableEq

/-- `maxParticleSystems` (Effects.js 16). -/
def maxParticleSystems : ℤ := 20

/-- `maxDecals` (Effects.js 17). -/
def maxDecals : ℤ := 50

/-- Constructor state (Effects.js 13-19). -/
def initialEffects : EffectsState := ⟨[], 0, 0⟩

/-- The scan loop of `removeOldestEffect` (Effects.js 409-419):
`oldestIndex` starts at `-1` (here `none`) and `oldestAge` at `0`; an
entry is recorded only when its age is STRICTLY greater than the best
age so far — so a population whose maximal age is `0` yields no index. -/
def findOldestLoop (t : EffectType) : List Effect → ℕ → Option ℕ → ℚ → Option ℕ
  | [], _, best, _ => best
  | e :: rest, i, best, bestAge =>
    if e.type = t ∧ bestAge < e.age then findOldestLoop t rest (i + 1) (some i) e.age
    else findOldestLoop t rest (i + 1) best bestAge

/-- `EffectsManager.removeOldestEffect` (Effects.js 408-431): remove the
found entry (if any) and decrement the matching counter. -/
def removeOldestEffect (s : EffectsState) (t : EffectType) : EffectsState :=
  match findOldestLoop t s.activeEffects 0 none 0 with
  | none => s
  | some i =>
    { activeEffects := s.activeEffects.eraseIdx i,
      particleCount := if t = .particle then s.particleCount - 1 else s.particleCount,
      decalCount := if t = .decal then s.decalCount - 1 else s.decalCount }

/-- `EffectsManager.createBloodParticles` (Effects.js 215-336),
restricted to manager state: evict when at the particle cap, then push
a fresh particle system (age 0, lifetime 2.0, Effects.js 296-300) and
increment the counter.  Geometry/material construction touches no
manager state. -/
def createBloodParticles (s : EffectsState) : EffectsState :=
  let s1 := if maxParticleSystems ≤ s.particleCount then removeOldestEffect s .particle else s
  { s1 with activeEffects := s1.activeEffects ++ [⟨.particle, 0, 2⟩],
            particleCount := s1.particleCount + 1 }

/-- `EffectsManager.createBloodSplatter` (Effects.js 344-402): evict
when at the decal cap, then push a fresh decal (age 0, lifetime 30.0,
Effects.js 378-382) and increment the counter. -/
def createBloodSplatter (s : EffectsState) : EffectsState :=
  let s1 := if maxDecals ≤ s.decalCount then removeOldestEffect s .decal else s
  { s1 with activeEffects := s1.activeEffects ++ [⟨.decal, 0, 30⟩],
            decalCount := s1.decalCount + 1 }

/-- `EffectsManager.createBloodImpact` (Effects.js 439-465): one
particle burst, one splatter, and for `intensity > 0.7` another
`Math.floor((intensity - 0.7) * 6)` splatters. -/
def createBloodImpact (s : EffectsState) (intensity : ℚ) : EffectsState :=
  let s1 := createBloodSplatter (createBloodParticles s)
  if 7/10 < intensity then
    createBloodSplatter^[(Int.floor ((intensity - 7/10) * 6)).toNat] s1
  else s1

/-- Per-effect ageing performed by the `update` closures
(Effects.js 301-303, 383-385): `age += deltaTime`. -/
def ageEffect (dt : ℚ) (e : Effect) : Effect := { e with age := e.age + dt }

/-- The completion test returned by both `update` closures
(Effects.js 328, 394): `age >= lifetime`. -/
def effectCompleted (e : Effect) : Bool := decide (e.lifetime ≤ e.age)

/-- `EffectsManager.update` (Effects.js 471-488).  The source iterates
the array from the last index down to 0, ages each effect once, and
`splice`s out the completed ones, decrementing the matching counter for
each removal; since removing index `i` never disturbs indices below
`i`, one downward pass visits every effect exactly once, so the loop is
an age-map followed by a partition on the completion test. -/
def updateEffects (s : EffectsState) (dt : ℚ) : EffectsState :=
  let aged := s.activeEffects.map (ageEffect dt)
  let removed := aged.filter effectCompleted
  { activeEffects := aged.filter (fun e => ! effectCompleted e),
    particleCount :=
      s.particleCount - ((removed.filter (fun e => e.type == EffectType.particle)).length : ℤ),
    decalCount :=
      s.decalCount - ((removed.filter (fun e => e.type == EffectType.decal)).length : ℤ) }

/-- `EffectsManager.clearAllEffects` (Effects.js 493-501). -/
def clearAllEffects (_s : EffectsState) : EffectsState := ⟨[], 0, 0⟩

/-- The manager operations the invariant claims quantify over. -/
inductive EffOp where
  | particles
  | splatter
  | impact (intensity : ℚ)
  | removeOldest (t : EffectType)
  | update (dt : ℚ)
  | clearAll
deriving Repr, DecidableEq

def applyEffOp (s : EffectsState) : EffOp → EffectsState
  | .particles => createBloodParticles s
  | .splatter => createBloodSplatter s
  | .impact intensity => createBloodImpact s intensity
  | .removeOldest t => removeOldestEffect s t
  | .update dt => updateEffects s dt
  | .clearAll => clearAllEffects s

def runEffOps (ops : List EffOp) (s : EffectsState) : EffectsState :=
  ops.foldl applyEffOp s

/-- Number of live effects of a given kind. -/
def typeCount (t : EffectType) (l : List Effect) : ℤ :=
  ((l.filter (fun e => e.type == t)).length : ℤ)

/-- The counter fields agree with the actual content of `activeEffects`. -/
def countsConsistent (s : EffectsState) : Prop :=
  s.particleCount = typeCount .particle s.activeEffects ∧
  s.decalCount = typeCount .decal s.activeEffects

/-! ## `Player` look state (Effects.js 1617-1621, 2166-2186)

`updateLook`'s vertical branch adds `deltaY * rotationSpeed * deltaTime`
to `currentLookVertical` and clamps it into
`[lookVerticalMin, lookVerticalMax]` via `Math.max(min, Math.min(max, v))`;
the horizontal branch only rotates the body yaw and never touches the
pitch.  The constructor sets the bounds to `∓ Math.PI * 0.4`, which
forces the carrier to be `ℝ`; the update function itself is kept
polymorphic. -/

structure LookState (α : Type) where
  lookVerticalMin : α
  lookVerticalMax : α
  currentLookVertical : α

/-- The pitch component of `Player.updateLook` (Effects.js 2172-2185). -/
def updateLookPitch [LinearOrderedField α] [DecidableEq α]
    (s : LookState α) (deltaY rotationSpeed deltaTime : α) : LookState α :=
  if deltaY = 0 then s
  else
    { s with currentLookVertical :=
        (max s.lookVerticalMin
          (min s.lookVerticalMax
            (s.currentLookVertical + deltaY * rotationSpeed * deltaTime))) }

/-- A whole session of mouse-look frames, each a `(deltaY, deltaTime)`
pair, at the player's fixed `rotationSpeed`. -/
def applyLooks [LinearOrderedField α] [DecidableEq α] (rotationSpeed : α)
    (s : LookState α) (frames : List (α × α)) : LookState α :=
  frames.foldl (fun st f => updateLookPitch st f.1 rotationSpeed f.2) s

/-- The look state built by the `Player` constructor
(Effects.js 1619-1621): bounds `∓ Math.PI * 0.4`, initial pitch `0`. -/
noncomputable def playerInitLook : LookState ℝ :=
  { lookVerticalMin := -(Real.pi * 0.4),
    lookVerticalMax := Real.pi * 0.4,
    currentLookVertical := 0 }

/-- `rotationSpeed` (Effects.js 1618). -/
noncomputable def playerRotationSpeed : ℝ := 1.5

/-! ## `Player` health (Effects.js 1597, 2192-2197)

`takeDamage` subtracts the amount and, when the result is `≤ 0`, writes
`"Player died"` to the console.  The method contains no invocation of
any orchestrator / `onDeath` callback, and the `Player` class stores
none; `orchestratorNotifications` counts such invocations and is
therefore never incremented, while `consoleDeathLogs` counts the
console message, which recurs on every further damaging call at
non-positive health. -/

structure PlayerHealth where
  health : ℚ
  consoleDeathLogs : ℕ
  orchestratorNotifications : ℕ
deriving Repr, DecidableEq

/-- `Player.takeDamage` (Effects.js 2192-2197). -/
def takeDamage (s : PlayerHealth) (amount : ℚ) : PlayerHealth :=
  let h := s.health - amount
  if h ≤ 0 then
    { health := h,
      consoleDeathLogs := s.consoleDeathLogs + 1,
      orchestratorNotifications := s.orchestratorNotifications }
  else { s with health := h }

/-- Constructor health state (Effects.js 1597): `health = 100`. -/
def playerInitHealth : PlayerHealth := ⟨100, 0, 0⟩

/-- The health after a session of `takeDamage` calls. -/
def healthAfter (amounts : List ℚ) : PlayerHealth :=
  amounts.foldl takeDamage playerInitHealth

/-! ## `Player` weapon equipping (Effects.js 1764-1813)

Weapons are identified here by their visual model (a `ℕ` tag standing
for the `THREE.Group`); the weapon container's children list is the
attachment state that `equipWeapon` clears and refills. -/

structure PlayerEquip where
  weapons : List ℕ
  currentWeaponIndex : ℤ
  weaponContainerChildren : List ℕ
deriving Repr, DecidableEq

/-- `Player.equipWeapon` (Effects.js 1777-1813): an out-of-range index
is rejected before anything is touched; otherwise the container is
emptied, the index stored, and the selected weapon's model attached
(`getCurrentWeapon` is `weapons[currentWeaponIndex]`, Effects.js
1764-1770; the ammo-UI write is external).  The in-range lookup is
total, and the source's `if (weaponToEquip)` null-check falls through
to `false` only in the unreachable missing-weapon case. -/
def equipWeapon (p : PlayerEquip) (index : ℤ) : PlayerEquip × Bool :=
  if index < 0 ∨ (p.weapons.length : ℤ) ≤ index then (p, false)
  else
    let p1 := { p with weaponContainerChildren := [] }
    let p2 := { p1 with currentWeaponIndex := index }
    match p2.weapons.get? index.toNat with
    | some w => ({ p2 with weaponContainerChildren := [w] }, true)
    | none => (p2, false)

/-! ## Theorems -/

/-- C5: `calculateDamage` computes exactly
`round(baseDamage × (critical ? 2 : 1) × max(0, 1 − distance/range))`
for every base damage, critical flag and distance whenever the range is
positive (the truthiness-skipped `distance = 0` case coincides with
falloff 1); in particular a melee weapon with damage 40 and range 2.5
hit at distance 2.0 reports damage 8. -/
theorem c5_damage_formula :
    (∀ (damage cooldown lastUsed range dist : ℚ) (critical : Bool), 0 < range →
      calculateDamage ⟨damage, cooldown, lastUsed, range⟩ critical (some dist) =
        jsRound (damage * (if critical then 2 else 1) * max 0 (1 - dist / range))) ∧
    calculateDamage ⟨40, 4/5, 0, 5/2⟩ false (some 2) = 8 := by
  constructor
  · intro damage cooldown lastUsed range dist critical _hr
    unfold calculateDamage
    by_cases hd : dist = 0
    · subst hd
      cases critical <;> simp
    · simp only [ne_eq, hd, not_false_eq_true, if_true, ite_true, ite_false]
      cases critical <;> simp
  · norm_num [calculateDamage, jsRound]

/-- Witness for C5 at a concrete critical ranged shot. -/
theorem c5_damage_formula_witness :
    calculateDamage ⟨40, 4/5, 0, 5/2⟩ true (some 1) =
      jsRound (40 * (if true then 2 else 1) * max 0 (1 - 1 / (5/2))) :=
  c5_damage_formula.1 40 (4/5) 0 (5/2) 1 true (by norm_num)

/-- C3 counterexample: a ranged weapon with an empty magazine
(`current = 0`, `reserve = 90`), last used at `t = 10` with cooldown
`0.1`, called again at `t = 10.05` — strictly inside the cooldown —
returns failure yet flips `isReloading` from `false` to `true`, so
weapon state does change on a failed under-cooldown call. -/
theorem c3_counterexample :
    ((10 + 1/20 : ℚ) - 10 < 1/10) ∧
    (rangedUse ⟨⟨25, 1/10, 10, 100⟩, 0, 30, 90, false, 0, 2⟩ (10 + 1/20)).2 = false ∧
    (rangedUse ⟨⟨25, 1/10, 10, 100⟩, 0, 30, 90, false, 0, 2⟩ (10 + 1/20)).1.isReloading
      = true := by
  refine ⟨by norm_num, ?_, ?_⟩ <;> norm_num [rangedUse, rangedReload]

/-- C3 (amended): a `use()` call issued strictly before `cooldown`
seconds have elapsed since the last use returns failure and leaves
ammo (current and reserve), `lastUsed` and the swing state unchanged;
a melee weapon, and a ranged weapon whose magazine is non-empty, is
unchanged entirely — the sole exception is a non-reloading ranged
weapon with an empty magazine, which auto-starts a reload before the
cooldown gate is consulted. -/
theorem c3_cooldown_failure :
    (∀ (m : MeleeState) (now : ℚ), now - m.base.lastUsed < m.base.cooldown →
      meleeUse m now = (m, false)) ∧
    (∀ (r : RangedState) (now : ℚ), now - r.base.lastUsed < r.base.cooldown →
      (rangedUse r now).2 = false ∧
      (rangedUse r now).1.current = r.current ∧
      (rangedUse r now).1.reserve = r.reserve ∧
      (rangedUse r now).1.base.lastUsed = r.base.lastUsed ∧
      (0 < r.current → rangedUse r now = (r, false))) := by
  constructor
  · intro m now h
    have hcu : canUse m.base now = false := by
      simp only [canUse, decide_eq_false_iff_not, not_le]
      linarith
    simp [meleeUse, weaponUse, hcu]
  · intro r now h
    have hcu : canUse r.base now = false := by
      simp only [canUse, decide_eq_false_iff_not, not_le]
      linarith
    by_cases hrel : r.isReloading
    · simp [rangedUse, hrel]
    · by_cases hcur : r.current ≤ 0
      · refine ⟨by simp [rangedUse, hrel, hcur], ?_, ?_, ?_,
          fun hpos => absurd hpos (not_lt.mpr hcur)⟩ <;>
        · simp only [rangedUse, hrel, hcur, if_true, if_false, Bool.false_eq_true,
            rangedReload]
          split <;> simp
      · simp [rangedUse, hrel, hcur, weaponUse, hcu]

/-- Witness for C3 (amended): a knife last used at `t = 0` with
cooldown `0.5`, re-used at `t = 0.1`. -/
theorem c3_cooldown_failure_witness :
    meleeUse ⟨⟨40, 1/2, 0, 2⟩, 60, 3/10, false, 0, 1⟩ (1/10) =
      (⟨⟨40, 1/2, 0, 2⟩, 60, 3/10, false, 0, 1⟩, false) :=
  c3_cooldown_failure.1 ⟨⟨40, 1/2, 0, 2⟩, 60, 3/10, false, 0, 1⟩ (1/10) (by norm_num)

/-- C7: a player at health 30 taking 40 damage ends at health −10 (≤ 0)
but zero death notifications reach the orchestrator — `takeDamage` only
writes a console message, the class stores no death callback, and the
message recurs on the next damaging call (two logs, still zero
notifications), contradicting "exactly one". -/
theorem c7_no_orchestrator_notification :
    (takeDamage ⟨30, 0, 0⟩ 40).health = -10 ∧
    (takeDamage ⟨30, 0, 0⟩ 40).health ≤ 0 ∧
    (takeDamage ⟨30, 0, 0⟩ 40).orchestratorNotifications = 0 ∧
    (takeDamage ⟨30, 0, 0⟩ 40).consoleDeathLogs = 1 ∧
    (takeDamage (takeDamage ⟨30, 0, 0⟩ 40) 10).orchestratorNotifications = 0 ∧
    (takeDamage (takeDamage ⟨30, 0, 0⟩ 40) 10).consoleDeathLogs = 2 := by
  norm_num [takeDamage]

/-- C8 counterexample: from the initial health of 100, the damage
sequence 70 then 40 leaves health at −10 — `takeDamage` does not clamp
at 0, so the value the UI reads each frame leaves the claimed
`[0, 100]` range. -/
theorem c8_counterexample :
    (healthAfter [70, 40]).health = -10 ∧ (healthAfter [70, 40]).health < 0 := by
  norm_num [healthAfter, playerInitHealth, takeDamage]

/-- `takeDamage` with a non-negative amount never raises health. -/
theorem takeDamage_health_le (s : PlayerHealth) (a : ℚ) (ha : 0 ≤ a) :
    (takeDamage s a).health ≤ s.health := by
  simp only [takeDamage]
  split <;> simp <;> linarith

/-- Health is non-increasing along any damage sequence. -/
theorem foldl_takeDamage_health_le :
    ∀ (amounts : List ℚ) (s : PlayerHealth), (∀ a ∈ amounts, 0 ≤ a) →
      (amounts.foldl takeDamage s).health ≤ s.health := by
  intro amounts
  induction amounts with
  | nil => intro s _; simp
  | cons a rest ih =>
    intro s h
    have h1 : (takeDamage s a).health ≤ s.health :=
      takeDamage_health_le s a (h a (by simp))
    have h2 := ih (takeDamage s a) (fun b hb => h b (by simp [hb]))
    simpa using le_trans h2 h1

/-- C8 (amended): starting from the constructor health of 100, across
every sequence of `takeDamage` calls with non-negative amounts (the
only health mutation in the class) health never exceeds 100; it is not,
however, bounded below by 0. -/
theorem c8_health_upper_bound (amounts : List ℚ) (h : ∀ a ∈ amounts, 0 ≤ a) :
    (healthAfter amounts).health ≤ 100 := by
  have := foldl_takeDamage_health_le amounts playerInitHealth h
  simpa [healthAfter, playerInitHealth] using this

/-- Witness for C8 (amended) on the damage sequence `[30, 20]`. -/
theorem c8_health_upper_bound_witness :
    (healthAfter [30, 20]).health ≤ 100 :=
  c8_health_upper_bound [30, 20] (by norm_num)

/-- C10: `equipWeapon` with an index outside `[0, weapons.length)`
returns `false` and leaves the player state — current weapon index and
weapon-container attachment included — exactly as it was. -/
theorem c10_equip_out_of_range (p : PlayerEquip) (index : ℤ)
    (h : index < 0 ∨ (p.weapons.length : ℤ) ≤ index) :
    equipWeapon p index = (p, false) := by
  unfold equipWeapon
  rw [if_pos h]

/-- Witness for C10: equipping index 5 with three weapons held. -/
theorem c10_equip_out_of_range_witness :
    equipWeapon ⟨[1, 2, 3], 0, [1]⟩ 5 = (⟨[1, 2, 3], 0, [1]⟩, false) :=
  c10_equip_out_of_range ⟨[1, 2, 3], 0, [1]⟩ 5 (by norm_num)

/-- C1: the caps are not enforced.  Twenty-one `createBloodParticles`
calls in the same frame — every live effect still at age 0, as after
any same-tick burst — leave 21 live particle systems, one over the cap
of 20: `removeOldestEffect`'s scan starts from `oldestAge = 0` and only
records an effect whose age is strictly greater, so with all ages 0 the
over-cap spawns evict nothing. -/
theorem c1_particle_cap_exceeded :
    (runEffOps (List.replicate 21 .particles) initialEffects).particleCount = 21 ∧
    typeCount .particle
      (runEffOps (List.replicate 21 .particles) initialEffects).activeEffects = 21 ∧
    maxParticleSystems < 21 := by
  decide

/-- C2: melee hit detection can never report a hit.  Every ray in the
fan is intersected against the hard-coded empty scene-object list
(`intersectObjects([])`, marked "Add scene objects here"), so for every
raycaster semantics, rotation semantics, weapon configuration and input
the callback payload is `none` — while the same raycaster semantics
applied to a world actually containing an object (a wall one unit ahead
of the 2.5-range knife) does produce an in-range intersection. -/
theorem c2_melee_hit_never_reported :
    (∀ (α : Type) (sem : α → Vec3 → Vec3 → ℚ → List RayHit)
       (rotY : Vec3 → ℚ → Vec3) (dtr : ℚ → ℚ) (m : MeleeState) (p d : Vec3),
       performHitDetection sem rotY dtr m p d = none) ∧
    intersectObjects wallIntersect [()] ⟨0, 0, 0⟩ ⟨0, 0, -1⟩ (5/2) =
      [⟨1, ⟨0, 0, -1⟩, ⟨0, 0, 1⟩⟩] := by
  refine ⟨fun α sem rotY dtr m p d => rfl, ?_⟩
  norm_num [intersectObjects, wallIntersect]

/-- One pitch update keeps the clamp bounds themselves and, when the
bounds are consistent, lands the pitch inside them (or leaves it where
it was on a zero delta). -/
theorem updateLookPitch_invariant [LinearOrderedField α] [DecidableEq α]
    (s : LookState α) (dy rs dt : α)
    (hlo : s.lookVerticalMin ≤ s.currentLookVertical)
    (hhi : s.currentLookVertical ≤ s.lookVerticalMax)
    (hb : s.lookVerticalMin ≤ s.lookVerticalMax) :
    (updateLookPitch s dy rs dt).lookVerticalMin = s.lookVerticalMin ∧
    (updateLookPitch s dy rs dt).lookVerticalMax = s.lookVerticalMax ∧
    s.lookVerticalMin ≤ (updateLookPitch s dy rs dt).currentLookVertical ∧
    (updateLookPitch s dy rs dt).currentLookVertical ≤ s.lookVerticalMax := by
  unfold updateLookPitch
  split
  · exact ⟨rfl, rfl, hlo, hhi⟩
  · exact ⟨rfl, rfl, le_max_left _ _, max_le hb (min_le_left _ _)⟩

/-- The clamp invariant survives any whole session of look frames. -/
theorem applyLooks_invariant [LinearOrderedField α] [DecidableEq α] :
    ∀ (frames : List (α × α)) (rs : α) (s : LookState α),
      s.lookVerticalMin ≤ s.currentLookVertical →
      s.currentLookVertical ≤ s.lookVerticalMax →
      s.lookVerticalMin ≤ s.lookVerticalMax →
      (applyLooks rs s frames).lookVerticalMin = s.lookVerticalMin ∧
      (applyLooks rs s frames).lookVerticalMax = s.lookVerticalMax ∧
      s.lookVerticalMin ≤ (applyLooks rs s frames).currentLookVertical ∧
      (applyLooks rs s frames).currentLookVertical ≤ s.lookVerticalMax := by
  intro frames
  induction frames with
  | nil => intro rs s h1 h2 _h3; exact ⟨rfl, rfl, h1, h2⟩
  | cons f rest ih =>
    intro rs s h1 h2 h3
    obtain ⟨e1, e2, e3, e4⟩ := updateLookPitch_invariant s f.1 rs f.2 h1 h2 h3
    have hrec := ih rs (updateLookPitch s f.1 rs f.2)
      (by rw [e1]; exact e3) (by rw [e2]; exact e4) (by rw [e1, e2]; exact h3)
    have hstep : applyLooks rs s (f :: rest) =
        applyLooks rs (updateLookPitch s f.1 rs f.2) rest := rfl
    rw [hstep, hrec.1, hrec.2.1]
    exact ⟨e1, e2, by rw [← e1]; exact hrec.2.2.1, by rw [← e2]; exact hrec.2.2.2⟩

/-- C6: starting from the constructor's pitch of 0, after every
sequence of mouse-look frames (arbitrary vertical deltas and frame
times) the camera pitch stays within `[-0.4π, 0.4π]` — each update
clamps into `[lookVerticalMin, lookVerticalMax] = [-π·0.4, π·0.4]`. -/
theorem c6_pitch_clamped (frames : List (ℝ × ℝ)) :
    -(Real.pi * 0.4) ≤
      (applyLooks playerRotationSpeed playerInitLook frames).currentLookVertical ∧
    (applyLooks playerRotationSpeed playerInitLook frames).currentLookVertical ≤
      Real.pi * 0.4 := by
  have hpi : (0 : ℝ) ≤ Real.pi * 0.4 := by positivity
  have h := applyLooks_invariant frames playerRotationSpeed playerInitLook
    (by simpa [playerInitLook] using hpi)
    (by simpa [playerInitLook] using hpi)
    (by simp only [playerInitLook]; linarith)
  exact ⟨by simpa [playerInitLook] using h.2.2.1, by simpa [playerInitLook] using h.2.2.2⟩

/-- `rangedReload` only toggles the reload flags: ammo and cooldown
fields are untouched whether or not the reload is accepted. -/
theorem rangedReload_state (r : RangedState) :
    (rangedReload r).1.current = r.current ∧
    (rangedReload r).1.reserve = r.reserve ∧
    (rangedReload r).1.maxAmmo = r.maxAmmo := by
  simp only [rangedReload]
  split <;> exact ⟨rfl, rfl, rfl⟩

/-- `rangedUse` either leaves the ammo pools unchanged (any failure
path) or consumes exactly one magazine round; the magazine capacity is
never altered. -/
theorem rangedUse_state (r : RangedState) (now : ℚ) :
    (rangedUse r now).1.maxAmmo = r.maxAmmo ∧
    (((rangedUse r now).1.current = r.current ∧ (rangedUse r now).1.reserve = r.reserve) ∨
     ((rangedUse r now).1.current = r.current - 1 ∧ (rangedUse r now).1.reserve = r.reserve)) := by
  simp only [rangedUse]
  split
  · exact ⟨rfl, Or.inl ⟨rfl, rfl⟩⟩
  · split
    · obtain ⟨hc, hr, hm⟩ := rangedReload_state r
      exact ⟨hm, Or.inl ⟨hc, hr⟩⟩
    · split
      · exact ⟨rfl, Or.inl ⟨rfl, rfl⟩⟩
      · exact ⟨rfl, Or.inr ⟨rfl, rfl⟩⟩

/-- Reload completion transfers `min(max − current, reserve)` rounds:
the total is conserved and the magazine never overfills. -/
theorem rangedUpdate_state (r : RangedState) (dt : ℚ) :
    (rangedUpdate r dt).current + (rangedUpdate r dt).reserve = r.current + r.reserve ∧
    (rangedUpdate r dt).maxAmmo = r.maxAmmo ∧
    (r.current ≤ r.maxAmmo → (rangedUpdate r dt).current ≤ r.maxAmmo) := by
  simp only [rangedUpdate]
  split
  · split
    · refine ⟨by dsimp only; omega, rfl, fun h => ?_⟩
      have := min_le_left (r.maxAmmo - r.current) r.reserve
      dsimp only
      omega
    · exact ⟨rfl, rfl, fun h => h⟩
  · exact ⟨rfl, rfl, fun h => h⟩

/-- Every single ranged-weapon operation keeps the capacity, never
increases the ammo total, and preserves `current ≤ maxAmmo`. -/
theorem applyRangedOp_invariant (r : RangedState) (op : RangedOp) :
    (applyRangedOp r op).maxAmmo = r.maxAmmo ∧
    (applyRangedOp r op).current + (applyRangedOp r op).reserve ≤ r.current + r.reserve ∧
    (r.current ≤ r.maxAmmo → (applyRangedOp r op).current ≤ r.maxAmmo) := by
  cases op with
  | use now =>
    obtain ⟨hm, hcase⟩ := rangedUse_state r now
    rcases hcase with ⟨hc, hr⟩ | ⟨hc, hr⟩ <;>
      exact ⟨hm, by simp only [applyRangedOp]; omega,
        fun h => by simp only [applyRangedOp]; omega⟩
  | reload =>
    obtain ⟨hc, hr, hm⟩ := rangedReload_state r
    exact ⟨hm, by simp only [applyRangedOp]; omega,
      fun h => by simp only [applyRangedOp]; omega⟩
  | update dt =>
    obtain ⟨hsum, hm, hcur⟩ := rangedUpdate_state r dt
    exact ⟨hm, by simp only [applyRangedOp]; omega,
      fun h => by simp only [applyRangedOp]; exact hcur h⟩

/-- `current ≤ maxAmmo` is preserved by whole operation sequences. -/
theorem runRangedOps_current_le :
    ∀ (ops : List RangedOp) (r : RangedState), r.current ≤ r.maxAmmo →
      (runRangedOps r ops).current ≤ (runRangedOps r ops).maxAmmo := by
  intro ops
  induction ops with
  | nil => intro r h; exact h
  | cons op rest ih =>
    intro r h
    obtain ⟨hm, _, hcur⟩ := applyRangedOp_invariant r op
    exact ih (applyRangedOp r op) (by rw [hm]; exact hcur h)

/-- C4: across any sequence of ranged-weapon operations,
`current + reserve` never increases on a `use()` call (a successful
shot consumes one round), never decreases on an `update` tick (reload
completion conserves the total), and — given `current ≤ max` initially
— the magazine never exceeds its capacity. -/
theorem c4_ammo_invariants :
    (∀ (r : RangedState) (now : ℚ),
      (rangedUse r now).1.current + (rangedUse r now).1.reserve ≤ r.current + r.reserve) ∧
    (∀ (r : RangedState) (dt : ℚ),
      r.current + r.reserve ≤ (rangedUpdate r dt).current + (rangedUpdate r dt).reserve) ∧
    (∀ (ops : List RangedOp) (r : RangedState), r.current ≤ r.maxAmmo →
      (runRangedOps r ops).current ≤ (runRangedOps r ops).maxAmmo) := by
  refine ⟨fun r now => ?_, fun r dt => ?_, fun ops r h => runRangedOps_current_le ops r h⟩
  · obtain ⟨_, hcase⟩ := rangedUse_state r now
    rcases hcase with ⟨hc, hr⟩ | ⟨hc, hr⟩ <;> omega
  · exact le_of_eq (rangedUpdate_state r dt).1.symm

/-- Witness for C4 on a concrete rifle running a shot, a reload request
and a completing tick. -/
theorem c4_ammo_invariants_witness :
    (runRangedOps ⟨⟨20, 1/10, 0, 100⟩, 30, 30, 90, false, 0, 2⟩
        [.use 1, .reload, .update 2]).current ≤
      (runRangedOps ⟨⟨20, 1/10, 0, 100⟩, 30, 30, 90, false, 0, 2⟩
        [.use 1, .reload, .update 2]).maxAmmo :=
  c4_ammo_invariants.2.2 [.use 1, .reload, .update 2]
    ⟨⟨20, 1/10, 0, 100⟩, 30, 30, 90, false, 0, 2⟩ (by norm_num)

theorem typeCount_def (t : EffectType) (l : List Effect) :
    typeCount t l = ((l.filter (fun e => e.type == t)).length : ℤ) := rfl

theorem typeCount_cons (t : EffectType) (e : Effect) (l : List Effect) :
    typeCount t (e :: l) = (if e.type = t then 1 else 0) + typeCount t l := by
  by_cases h : e.type = t <;>
    simp [typeCount_def, List.filter_cons, h, Int.add_comm]

theorem typeCount_append (t : EffectType) (l₁ l₂ : List Effect) :
    typeCount t (l₁ ++ l₂) = typeCount t l₁ + typeCount t l₂ := by
  simp [typeCount_def, List.filter_append]

/-- Ageing an effect does not change its kind, so kind counts survive
the age map of `updateEffects`. -/
theorem typeCount_map_age (t : EffectType) (dt : ℚ) (l : List Effect) :
    typeCount t (l.map (ageEffect dt)) = typeCount t l := by
  induction l with
  | nil => rfl
  | cons e rest ih => simp [typeCount_cons, ih, ageEffect]

/-- A boolean test partitions a list's kind count. -/
theorem typeCount_filter_partition (t : EffectType) (f : Effect → Bool)
    (l : List Effect) :
    typeCount t (l.filter fun e => !f e) + typeCount t (l.filter f) = typeCount t l := by
  induction l with
  | nil => rfl
  | cons e rest ih =>
    cases hf : f e <;> by_cases ht : e.type = t <;>
      simp [List.filter_cons, hf, ht, typeCount_cons] <;> omega

/-- Removing index `k` removes exactly one entry of that entry's kind. -/
theorem typeCount_eraseIdx (t : EffectType) :
    ∀ (l : List Effect) (k : ℕ) (h : k < l.length),
      typeCount t (l.eraseIdx k) =
        typeCount t l - (if (l.get ⟨k, h⟩).type = t then 1 else 0) := by
  intro l
  induction l with
  | nil => intro k h; exact absurd h (by simp)
  | cons e rest ih =>
    intro k h
    cases k with
    | zero =>
      by_cases ht : e.type = t <;>
        simp [List.eraseIdx, typeCount_cons, List.get, ht]
    | succ k =>
      have h' : k < rest.length := by simpa using h
      have := ih k h'
      by_cases ht : e.type = t <;>
        simp [List.eraseIdx, typeCount_cons, List.get, ht, this] <;>
        omega

/-- The `removeOldestEffect` scan either reports nothing or an index
that is in range and holds an effect of the requested kind. -/
theorem findOldestLoop_spec (t : EffectType) :
    ∀ (l : List Effect) (i : ℕ) (best : Option ℕ) (a : ℚ),
      findOldestLoop t l i best a = best ∨
      ∃ k, ∃ (h : k < l.length),
        findOldestLoop t l i best a = some (i + k) ∧ (l.get ⟨k, h⟩).type = t := by
  intro l
  induction l with
  | nil => intro i best a; exact Or.inl rfl
  | cons e rest ih =>
    intro i best a
    by_cases hc : e.type = t ∧ a < e.age
    · have hstep : findOldestLoop t (e :: rest) i best a =
          findOldestLoop t rest (i + 1) (some i) e.age := by
        rw [findOldestLoop, if_pos hc]
      rcases ih (i + 1) (some i) e.age with heq | ⟨k, hk, heq, hty⟩
      · exact Or.inr ⟨0, by simp, by rw [hstep, heq, Nat.add_zero], hc.1⟩
      · refine Or.inr ⟨k + 1, by simpa using Nat.succ_lt_succ hk, ?_, hty⟩
        rw [hstep, heq]
        congr 1
        omega
    · have hstep : findOldestLoop t (e :: rest) i best a =
          findOldestLoop t rest (i + 1) best a := by
        rw [findOldestLoop, if_neg hc]
      rcases ih (i + 1) best a with heq | ⟨k, hk, heq, hty⟩
      · exact Or.inl (by rw [hstep, heq])
      · refine Or.inr ⟨k + 1, by simpa using Nat.succ_lt_succ hk, ?_, hty⟩
        rw [hstep, heq]
        congr 1
        omega

theorem removeOldestEffect_counts (s : EffectsState) (t : EffectType)
    (h : countsConsistent s) : countsConsistent (removeOldestEffect s t) := by
  unfold removeOldestEffect
  rcases findOldestLoop_spec t s.activeEffects 0 none 0 with heq | ⟨k, hk, heq, hty⟩
  · rw [heq]
    exact h
  · rw [heq, Nat.zero_add]
    obtain ⟨hp, hd⟩ := h
    have herase := typeCount_eraseIdx
    constructor
    · show (if t = .particle then s.particleCount - 1 else s.particleCount) = _
      rw [typeCount_eraseIdx .particle s.activeEffects k hk]
      cases t <;> simp_all
    · show (if t = .decal then s.decalCount - 1 else s.decalCount) = _
      rw [typeCount_eraseIdx .decal s.activeEffects k hk]
      cases t <;> simp_all

theorem createBloodParticles_counts (s : EffectsState)
    (h : countsConsistent s) : countsConsistent (createBloodParticles s) := by
  unfold createBloodParticles
  dsimp only
  have h1 : countsConsistent
      (if maxParticleSystems ≤ s.particleCount then removeOldestEffect s .particle else s) := by
    split
    · exact removeOldestEffect_counts s _ h
    · exact h
  obtain ⟨hp, hd⟩ := h1
  refine ⟨?_, ?_⟩ <;>
    simp [countsConsistent, typeCount_append, typeCount_cons, typeCount_def, hp, hd]

theorem createBloodSplatter_counts (s : EffectsState)
    (h : countsConsistent s) : countsConsistent (createBloodSplatter s) := by
  unfold createBloodSplatter
  dsimp only
  have h1 : countsConsistent
      (if maxDecals ≤ s.decalCount then removeOldestEffect s .decal else s) := by
    split
    · exact removeOldestEffect_counts s _ h
    · exact h
  obtain ⟨hp, hd⟩ := h1
  refine ⟨?_, ?_⟩ <;>
    simp [countsConsistent, typeCount_append, typeCount_cons, typeCount_def, hp, hd]

theorem iterate_splatter_counts :
    ∀ (n : ℕ) (s : EffectsState), countsConsistent s →
      countsConsistent (createBloodSplatter^[n] s) := by
  intro n
  induction n with
  | zero => intro s h; exact h
  | succ n ih =>
    intro s h
    rw [Function.iterate_succ_apply]
    exact ih _ (createBloodSplatter_counts s h)

theorem createBloodImpact_counts (s : EffectsState) (intensity : ℚ)
    (h : countsConsistent s) : countsConsistent (createBloodImpact s intensity) := by
  unfold createBloodImpact
  split
  · exact iterate_splatter_counts _ _
      (createBloodSplatter_counts _ (createBloodParticles_counts s h))
  · exact createBloodSplatter_counts _ (createBloodParticles_counts s h)

theorem updateEffects_counts (s : EffectsState) (dt : ℚ)
    (h : countsConsistent s) : countsConsistent (updateEffects s dt) := by
  obtain ⟨hp, hd⟩ := h
  unfold updateEffects
  dsimp only
  refine ⟨?_, ?_⟩
  · dsimp only
    rw [← typeCount_def EffectType.particle]
    have hpart := typeCount_filter_partition .particle effectCompleted
      (s.activeEffects.map (ageEffect dt))
    have hmap := typeCount_map_age .particle dt s.activeEffects
    omega
  · dsimp only
    rw [← typeCount_def EffectType.decal]
    have hpart := typeCount_filter_partition .decal effectCompleted
      (s.activeEffects.map (ageEffect dt))
    have hmap := typeCount_map_age .decal dt s.activeEffects
    omega

theorem applyEffOp_counts (s : EffectsState) (op : EffOp)
    (h : countsConsistent s) : countsConsistent (applyEffOp s op) := by
  cases op with
  | particles => exact createBloodParticles_counts s h
  | splatter => exact createBloodSplatter_counts s h
  | impact intensity => exact createBloodImpact_counts s intensity h
  | removeOldest t => exact removeOldestEffect_counts s t h
  | update dt => exact updateEffects_counts s dt h
  | clearAll => exact ⟨rfl, rfl⟩

/-- C9: after every sequence of manager operations (spawns of either
kind, blood impacts, updates, explicit evictions, clears) starting from
the freshly constructed manager, `particleCount` equals the number of
live effects of kind `particle` and `decalCount` the number of kind
`decal`. -/
theorem c9_counts_consistent (ops : List EffOp) :
    countsConsistent (runEffOps ops initialEffects) := by
  have hgen : ∀ (l : List EffOp) (s : EffectsState), countsConsistent s →
      countsConsistent (runEffOps l s) := by
    intro l
    induction l with
    | nil => intro s h; exact h
    | cons op rest ih => intro s h; exact ih _ (applyEffOp_counts s op h)
  exact hgen ops initialEffects ⟨rfl, rfl⟩

end CelShooter
